import Mathlib

/-!
Verification of the incremental dcinside crawler (`dcinside_incremental.py`).

The embedding below translates the crawler's data model and control flow into
Lean. Network I/O is represented by a `World` value: `listPages` gives the
(parsed) rows returned for each list page after `with_retry_get` (with `none`
for a fetch that exhausted its retries), and `details` gives the parsed detail
record for each detail URL (again `none` for a failed fetch). Time stamps are
threaded as plain strings since no claim depends on their value. Printing and
politeness sleeps of the crawl loop are dropped; the sleeps of the retry
wrapper are recorded symbolically as rationals because one claim speaks about
the backoff formula.
-/

namespace Dcinside

/-- One row of `parse_list_page`'s output (the fields `save_post` consumes). -/
structure Row where
  post_no : Nat
  title : String
  url : String
  author : Option String
  created_at : Option String
  views : Option Nat
  upvotes : Option Nat
deriving DecidableEq, Repr

/-- The record returned by `parse_post_page` for a detail page. -/
structure Detail where
  title : Option String
  author : Option String
  author_ip : Option String
  created_at : Option String
  views : Option Nat
  upvotes : Option Nat
  downvotes : Option Nat
  comments_count : Nat
  content : String
  images : List String
deriving DecidableEq, Repr

/-- One row of the `posts` table (schema of `ensure_db`); `PRIMARY KEY
(gallery_id, post_no)`, `url` UNIQUE. -/
structure PostRecord where
  post_no : Nat
  gallery_id : String
  url : String
  title : String
  author : Option String
  author_ip : Option String
  created_at : String
  views : Option Nat
  upvotes : Option Nat
  downvotes : Option Nat
  comments_count : Nat
  content : String
  images_json : List String
  crawled_at : String
deriving DecidableEq, Repr

/-- One row of the `crawl_state` table; `gallery_id` is its primary key. -/
structure CrawlStateRow where
  gallery_id : String
  last_max_post_no : Nat
  updated_at : String
deriving DecidableEq, Repr

/-- The sqlite database created by `ensure_db`: the two tables. -/
structure DB where
  posts : List PostRecord
  crawl_state : List CrawlStateRow
deriving DecidableEq, Repr

/-- `SELECT COALESCE(MAX(post_no), 0) FROM posts WHERE gallery_id=?`. -/
def maxPostNo (gid : String) : List PostRecord → Nat
  | [] => 0
  | p :: ps => if p.gallery_id = gid then max (maxPostNo gid ps) p.post_no else maxPostNo gid ps

/-- `get_last_max_post_no`: reads the watermark the controller uses, as the
maximum `post_no` among persisted posts of the gallery (0 when none). -/
def get_last_max_post_no (db : DB) (gallery_id : String) : Nat :=
  maxPostNo gallery_id db.posts

/-- `INSERT INTO crawl_state ... ON CONFLICT(gallery_id) DO UPDATE`:
replace the row keyed by `gid` or append a fresh one. -/
def upsert_state (gid : String) (v : Nat) (now : String) : List CrawlStateRow → List CrawlStateRow
  | [] => [⟨gid, v, now⟩]
  | c :: cs => if c.gallery_id = gid then ⟨gid, v, now⟩ :: cs else c :: upsert_state gid v now cs

/-- `update_crawl_state`. -/
def update_crawl_state (db : DB) (gid : String) (last_max : Nat) (now : String) : DB :=
  { db with crawl_state := upsert_state gid last_max now db.crawl_state }

/-- Lookup of the `crawl_state` row keyed by `gid` (0 when absent). -/
def stateLookup (gid : String) : List CrawlStateRow → Nat
  | [] => 0
  | c :: cs => if c.gallery_id = gid then c.last_max_post_no else stateLookup gid cs

/-- Observation used by the specification: the `last_max_post_no` stored in
`crawl_state` for a gallery (0 when the row is absent). The crawler itself
never reads this value back. -/
def crawl_state_watermark (db : DB) (gid : String) : Nat :=
  stateLookup gid db.crawl_state

/-- Python truthiness of `detail.get("title") or row.get("title")`:
`None` and `""` fall through to the row's title. -/
def mergeTitle (d : Option String) (r : String) : String :=
  match d with
  | some s => if s = "" then r else s
  | none => r

/-- `(detail.get("created_at") or row.get("created_at") or now).isoformat()`. -/
def mergeCreatedAt (d r : Option String) (now : String) : String :=
  match d with
  | some s => s
  | none => match r with
    | some s => s
    | none => now

/-- The tuple of values bound by `save_post`'s INSERT. -/
def mkRecord (gallery_id : String) (row : Row) (detail : Detail) (now : String) : PostRecord :=
  { post_no := row.post_no
    gallery_id := gallery_id
    url := row.url
    title := mergeTitle detail.title row.title
    author := detail.author
    author_ip := detail.author_ip
    created_at := mergeCreatedAt detail.created_at row.created_at now
    views := match detail.views with | some v => some v | none => row.views
    upvotes := detail.upvotes
    downvotes := detail.downvotes
    comments_count := detail.comments_count
    content := detail.content
    images_json := detail.images
    crawled_at := now }

/-- `INSERT OR IGNORE INTO posts`: the insert is dropped whenever an existing
row conflicts on the primary key `(gallery_id, post_no)` or on the UNIQUE
`url` column; otherwise the row is appended. -/
def save_post (db : DB) (gallery_id : String) (row : Row) (detail : Detail) (now : String) : DB :=
  let record := mkRecord gallery_id row detail now
  if db.posts.any (fun p =>
      decide ((p.gallery_id = record.gallery_id ∧ p.post_no = record.post_no) ∨ p.url = record.url))
  then db
  else { db with posts := db.posts ++ [record] }

/-! ### The retrying fetch (`with_retry_get`) -/

/-- Outcome of one underlying `session.get` attempt: a raised
`requests.RequestException`, or a response with a status code and body. -/
inductive FetchOutcome where
  | transportError
  | response (status : Nat) (body : String)
deriving DecidableEq, Repr

/-- What a call to `with_retry_get` did: the returned body (`none` models the
Python `None`), how many attempts were made, and the durations slept,
`sleep_base * (i + 1) + jitter i` for each failed attempt `i`. -/
structure RetryTrace where
  result : Option String
  attemptsMade : Nat
  sleeps : List ℚ
deriving DecidableEq, Repr

/-- The acceptance test of `with_retry_get`'s loop body: the body of a
response whose `status_code == 200`, and `none` for a transport error or any
other status. -/
def body200 : FetchOutcome → Option String
  | .transportError => none
  | .response s b => if s = 200 then some b else none

/-- The `for i in range(max_try)` loop of `with_retry_get`, started at attempt
index `i` with `fuel` iterations left. A status-200 response returns the body
at once; anything else (transport error or non-200 status) sleeps and moves to
the next attempt. -/
def retryAttempts (attempt : Nat → FetchOutcome) (sleep_base : ℚ) (jitter : Nat → ℚ) :
    Nat → Nat → RetryTrace
  | _, 0 => { result := none, attemptsMade := 0, sleeps := [] }
  | i, fuel + 1 =>
    match body200 (attempt i) with
    | some body => { result := some body, attemptsMade := 1, sleeps := [] }
    | none =>
      let rest := retryAttempts attempt sleep_base jitter (i + 1) fuel
      { result := rest.result
        attemptsMade := rest.attemptsMade + 1
        sleeps := (sleep_base * ((i : ℚ) + 1) + jitter i) :: rest.sleeps }

/-- `with_retry_get(url, session, max_try, sleep_base)`: `attempt` gives the
outcome of each underlying GET, `jitter` the value of `random.random()` drawn
before each sleep. -/
def with_retry_get (attempt : Nat → FetchOutcome) (max_try : Nat) (sleep_base : ℚ)
    (jitter : Nat → ℚ) : RetryTrace :=
  retryAttempts attempt sleep_base jitter 0 max_try

/-! ### The controller (`crawl_incremental`) -/

/-- `--mode incremental | backfill`. -/
inductive Mode where
  | incremental
  | backfill
deriving DecidableEq, Repr

/-- How a run ended: the three early-`return` sites plus falling off the page
loop (which also covers the `break` on an empty page, since both reach the
same final `update_crawl_state`). -/
inductive StopReason where
  | earlyStop
  | floorStop
  | maxNewStop
  | finished
deriving DecidableEq, Repr

/-- The environment of one run: parsed rows per list page (`none` for a list
fetch that exhausted retries) and parsed detail per URL (`none` for a failed
detail fetch). -/
structure World where
  listPages : Nat → Option (List Row)
  details : String → Option Detail

/-- The mutable locals of `crawl_incremental`'s loops, plus traces of the
detail URLs fetched and the `post_no`s encountered. -/
structure LoopSt where
  db : DB
  newCount : Nat
  consecutiveExisting : Nat
  observedMax : Nat
  fetchedDetails : List String
  seen : List Nat
deriving Repr

/-- Result of a run: final database, the watermark read at start, the list
pages requested, the detail URLs requested, the `post_no`s encountered, and
how the run ended. -/
structure RunResult where
  db : DB
  initialWatermark : Nat
  fetchedPages : List Nat
  fetchedDetails : List String
  seen : List Nat
  reason : StopReason
deriving Repr

/-- Outcome of processing one row: an early `return` (state already
checkpointed) or a `continue` to the next row. -/
inductive StepOut where
  | stopped (reason : StopReason) (st : LoopSt)
  | next (st : LoopSt)
deriving Repr

/-- The detail-fetch-and-save tail of the row loop: record the detail URL as
fetched; on failure `continue`; on success `save_post`, bump `new_count`, and
stop when `new_count >= max_new` (checkpointing `observedMax`). -/
def fetchAndSave (world : World) (gid now : String) (max_new : Nat) (st : LoopSt) (row : Row) :
    StepOut :=
  let st := { st with fetchedDetails := st.fetchedDetails ++ [row.url] }
  match world.details row.url with
  | none => .next st
  | some detail =>
    let st := { st with db := save_post st.db gid row detail now, newCount := st.newCount + 1 }
    if st.newCount ≥ max_new then
      .stopped .maxNewStop { st with db := update_crawl_state st.db gid st.observedMax now }
    else
      .next st

/-- The body of `for row in rows`: track `observed_max_no_this_run`, classify
by mode against the run's initial watermark `last_max_no`, and either skip,
stop (after `update_crawl_state`), or fetch-and-save. -/
def processRow (world : World) (gid now : String) (mode : Mode)
    (last_max_no max_new existing_break floor_post : Nat) (st : LoopSt) (row : Row) : StepOut :=
  let st := { st with observedMax := max st.observedMax row.post_no
                      seen := st.seen ++ [row.post_no] }
  match mode with
  | .incremental =>
    if row.post_no ≤ last_max_no then
      let st := { st with consecutiveExisting := st.consecutiveExisting + 1 }
      if st.consecutiveExisting ≥ existing_break then
        .stopped .earlyStop { st with db := update_crawl_state st.db gid st.observedMax now }
      else
        .next st
    else
      fetchAndSave world gid now max_new { st with consecutiveExisting := 0 } row
  | .backfill =>
    if floor_post ≠ 0 ∧ row.post_no ≤ floor_post then
      .stopped .floorStop { st with db := update_crawl_state st.db gid st.observedMax now }
    else
      fetchAndSave world gid now max_new st row

/-- `for row in rows`, threading the early-`return`s outward. -/
def processRows (world : World) (gid now : String) (mode : Mode)
    (last_max_no max_new existing_break floor_post : Nat) (st : LoopSt) :
    List Row → StepOut
  | [] => .next st
  | r :: rs =>
    match processRow world gid now mode last_max_no max_new existing_break floor_post st r with
    | .stopped reason st' => .stopped reason st'
    | .next st' =>
      processRows world gid now mode last_max_no max_new existing_break floor_post st' rs

/-- Stable insertion of a row into a list sorted by descending `post_no`
(ties keep the inserted, originally earlier, row first). -/
def insertDesc (r : Row) : List Row → List Row
  | [] => [r]
  | x :: xs => if x.post_no > r.post_no then x :: insertDesc r xs else r :: x :: xs

/-- `rows.sort(key=lambda r: r["post_no"], reverse=True)` of `parse_list_page`. -/
def sortDesc (l : List Row) : List Row :=
  l.foldr insertDesc []

/-- `for p in range(1, max_pages + 1)`: fetch page `p`; on fetch failure
`continue`; on an empty parse `break` to the final checkpoint; otherwise run
the row loop and propagate an early `return`. Falling off the loop performs
the final `update_crawl_state`. -/
def runPages (world : World) (gid now : String) (mode : Mode)
    (last_max_no max_new existing_break floor_post : Nat) :
    Nat → Nat → LoopSt → List Nat → RunResult
  | 0, _, st, fp =>
    { db := update_crawl_state st.db gid st.observedMax now
      initialWatermark := last_max_no
      fetchedPages := fp
      fetchedDetails := st.fetchedDetails
      seen := st.seen
      reason := .finished }
  | fuel + 1, p, st, fp =>
    let fp := fp ++ [p]
    match world.listPages p with
    | none => runPages world gid now mode last_max_no max_new existing_break floor_post fuel (p + 1) st fp
    | some raw =>
      let rows := sortDesc raw
      if rows.isEmpty then
        { db := update_crawl_state st.db gid st.observedMax now
          initialWatermark := last_max_no
          fetchedPages := fp
          fetchedDetails := st.fetchedDetails
          seen := st.seen
          reason := .finished }
      else
        match processRows world gid now mode last_max_no max_new existing_break floor_post st rows with
        | .stopped reason st' =>
          { db := st'.db
            initialWatermark := last_max_no
            fetchedPages := fp
            fetchedDetails := st'.fetchedDetails
            seen := st'.seen
            reason := reason }
        | .next st' =>
          runPages world gid now mode last_max_no max_new existing_break floor_post fuel (p + 1) st' fp

/-- `crawl_incremental(db_path, gallery_id, max_pages, max_new,
existing_break, ..., mode, floor_post)` over an explicit database value and
`World`. -/
def crawl_incremental (db : DB) (world : World) (gallery_id : String)
    (max_pages max_new existing_break : Nat) (mode : Mode) (floor_post : Nat)
    (now : String) : RunResult :=
  let last_max_no := get_last_max_post_no db gallery_id
  runPages world gallery_id now mode last_max_no max_new existing_break floor_post
    max_pages 1
    { db := db, newCount := 0, consecutiveExisting := 0, observedMax := last_max_no
      fetchedDetails := [], seen := [] }
    []

/-! ### Concrete fixtures used by the claim theorems -/

/-- A listing row for post number `n`, with detail URL `"u" ++ n`. -/
def mkRow (n : Nat) : Row :=
  { post_no := n, title := "t" ++ toString n, url := "u" ++ toString n
    author := none, created_at := none, views := none, upvotes := none }

/-- A successfully parsed detail page. -/
def mkDetail : Detail :=
  { title := some "title", author := some "alice", author_ip := none
    created_at := some "2025-01-01T00:00:00", views := some 7, upvotes := some 1
    downvotes := some 0, comments_count := 2, content := "body", images := [] }

/-- Listing rows `hi, hi-1, ...` of length `len` (descending order). -/
def descRows (hi len : Nat) : List Row :=
  (List.range len).map (fun i => mkRow (hi - i))

/-- The freshly created database. -/
def dbEmpty : DB :=
  { posts := [], crawl_state := [] }

/-- C6 scenario: one list page presenting posts 50 down to 25, every fetch
succeeding. -/
def worldC6 : World :=
  ⟨fun p => if p = 1 then some (descRows 50 26) else none, fun _ => some mkDetail⟩

/-- C6 scenario: post 40 already persisted, so the stored watermark is 40. -/
def dbC6 : DB :=
  { posts := [mkRecord "ecoin" (mkRow 40) mkDetail "t0"], crawl_state := [] }

/-- C6 scenario: the incremental run with `existing_break = 5`. -/
def runC6 : RunResult :=
  crawl_incremental dbC6 worldC6 "ecoin" 5 50 5 .incremental 0 "t1"

/-- C8 scenario: one list page descending from 105 to 1, every fetch
succeeding. -/
def worldC8 : World :=
  ⟨fun p => if p = 1 then some (descRows 105 105) else none, fun _ => some mkDetail⟩

/-- C8 scenario: post 103 is already stored before the backfill run. -/
def dbC8 : DB :=
  { posts := [mkRecord "ecoin" (mkRow 103) mkDetail "t0"], crawl_state := [] }

/-- C8 scenario: the backfill run with `floor_post = 100`. -/
def runC8 : RunResult :=
  crawl_incremental dbC8 worldC8 "ecoin" 1 50 20 .backfill 100 "t1"

/-- C1 scenario: posts 100 and 99 are listed; the detail fetch succeeds for
100 and exhausts its retries for 99. -/
def worldC1 : World :=
  ⟨fun p => if p = 1 then some [mkRow 100, mkRow 99] else none,
   fun u => if u = "u100" then some mkDetail else none⟩

/-- C1 scenario: the incremental run over the empty database. -/
def runC1 : RunResult :=
  crawl_incremental dbEmpty worldC1 "ecoin" 1 50 20 .incremental 0 "t1"

/-- C2 scenario, first run: post 100 is listed but its detail fetch fails. -/
def worldC2 : World :=
  ⟨fun p => if p = 1 then some [mkRow 100] else none, fun _ => none⟩

/-- A world in which every fetch (list or detail) exhausts its retries. -/
def worldAllFail : World :=
  ⟨fun _ => none, fun _ => none⟩

/-- C2 scenario: the first run observes post 100 without persisting it. -/
def runC2a : RunResult :=
  crawl_incremental dbEmpty worldC2 "ecoin" 1 50 20 .incremental 0 "t1"

/-- C2 scenario: the second run, in which every list fetch fails. -/
def runC2b : RunResult :=
  crawl_incremental runC2a.db worldAllFail "ecoin" 1 50 20 .incremental 0 "t2"

/-- C3 scenario: a database whose `crawl_state` row for `ecoin` says 100 while
no post is persisted. -/
def dbC3 : DB :=
  { posts := [], crawl_state := [⟨"ecoin", 100, "t0"⟩] }

/-- C3 scenario: a run over `dbC3`. -/
def runC3 : RunResult :=
  crawl_incremental dbC3 worldAllFail "ecoin" 1 50 20 .incremental 0 "t1"

/-- C4 scenario: the fetch of list page 1 exhausts its retries, page 2 lists
post 10, and detail fetches succeed. -/
def worldC4 : World :=
  ⟨fun p => if p = 2 then some [mkRow 10] else none, fun _ => some mkDetail⟩

/-- C4 scenario: a two-page incremental run. -/
def runC4 : RunResult :=
  crawl_incremental dbEmpty worldC4 "ecoin" 2 50 20 .incremental 0 "t1"

/-- C5 scenario: a detail record with no author. -/
def detailNoAuthor : Detail :=
  { mkDetail with author := none }

/-- C5 scenario: post 5 persisted from a detail page that lacked an author. -/
def dbC5 : DB :=
  save_post dbEmpty "ecoin" (mkRow 5) detailNoAuthor "t1"

/-- C7 scenario: posts 80 and 77 are listed; 80's detail fetch succeeds and
77's exhausts its retries. -/
def worldC7 : World :=
  ⟨fun p => if p = 1 then some [mkRow 80, mkRow 77] else none,
   fun u => if u = "u80" then some mkDetail else none⟩

/-- C7 scenario: the failing run persists 80 but not 77. -/
def runC7a : RunResult :=
  crawl_incremental dbEmpty worldC7 "ecoin" 1 50 20 .incremental 0 "t1"

/-- C7 scenario: the subsequent run over the resulting database. -/
def runC7b : RunResult :=
  crawl_incremental runC7a.db worldC7 "ecoin" 1 50 20 .incremental 0 "t2"

/-- C7 positive scenario: posts 77 and 70 are listed; 77's detail fetch fails
while 70's succeeds, so no higher item is persisted. -/
def worldC7c : World :=
  ⟨fun p => if p = 1 then some [mkRow 77, mkRow 70] else none,
   fun u => if u = "u70" then some mkDetail else none⟩

/-- C7 positive scenario: the same listing with every detail fetch now
succeeding. -/
def worldC7d : World :=
  ⟨fun p => if p = 1 then some [mkRow 77, mkRow 70] else none, fun _ => some mkDetail⟩

/-- C7 positive scenario: the failing run persists only 70. -/
def runC7c : RunResult :=
  crawl_incremental dbEmpty worldC7c "ecoin" 1 50 20 .incremental 0 "t1"

/-- C7 positive scenario: the retry run re-selects and persists 77. -/
def runC7d : RunResult :=
  crawl_incremental runC7c.db worldC7d "ecoin" 1 50 20 .incremental 0 "t2"

/-! ### Structural lemmas about the store operations and the run loop -/

/-- Projection of the carried loop state out of a step outcome. -/
def StepOut.st : StepOut → LoopSt
  | .stopped _ s => s
  | .next s => s

theorem update_crawl_state_posts (db : DB) (gid : String) (v : Nat) (now : String) :
    (update_crawl_state db gid v now).posts = db.posts :=
  rfl

theorem stateLookup_upsert (gid : String) (v : Nat) (now : String) :
    ∀ l : List CrawlStateRow, stateLookup gid (upsert_state gid v now l) = v := by
  intro l
  induction l with
  | nil => simp [upsert_state, stateLookup]
  | cons c cs ih =>
    by_cases h : c.gallery_id = gid
    · simp [upsert_state, stateLookup, h]
    · simp [upsert_state, stateLookup, h, ih]

theorem save_post_posts (db : DB) (gid : String) (row : Row) (detail : Detail) (now : String) :
    ∃ t, (save_post db gid row detail now).posts = db.posts ++ t := by
  dsimp only [save_post]
  split
  · exact ⟨[], by simp⟩
  · exact ⟨[mkRecord gid row detail now], rfl⟩

theorem fetchAndSave_posts (world : World) (gid now : String) (mn : Nat) (st : LoopSt)
    (row : Row) :
    ∃ t, (fetchAndSave world gid now mn st row).st.db.posts = st.db.posts ++ t := by
  dsimp only [fetchAndSave]
  cases world.details row.url with
  | none => exact ⟨[], by simp [StepOut.st]⟩
  | some d =>
    dsimp only
    obtain ⟨t, ht⟩ := save_post_posts st.db gid row d now
    split
    · exact ⟨t, ht⟩
    · exact ⟨t, ht⟩

theorem processRow_posts (world : World) (gid now : String) (mode : Mode)
    (lm mn eb fl : Nat) (st : LoopSt) (row : Row) :
    ∃ t, (processRow world gid now mode lm mn eb fl st row).st.db.posts = st.db.posts ++ t := by
  dsimp only [processRow]
  cases mode with
  | incremental =>
    by_cases h1 : row.post_no ≤ lm
    · by_cases h2 : st.consecutiveExisting + 1 ≥ eb
      · exact ⟨[], by simp [h1, h2, StepOut.st, update_crawl_state]⟩
      · exact ⟨[], by simp [h1, h2, StepOut.st]⟩
    · simpa [h1] using fetchAndSave_posts world gid now mn
        { st with consecutiveExisting := 0, observedMax := max st.observedMax row.post_no,
                  seen := st.seen ++ [row.post_no] } row
  | backfill =>
    by_cases h1 : fl ≠ 0 ∧ row.post_no ≤ fl
    · exact ⟨[], by simp [h1, StepOut.st, update_crawl_state]⟩
    · simpa [h1] using fetchAndSave_posts world gid now mn
        { st with observedMax := max st.observedMax row.post_no,
                  seen := st.seen ++ [row.post_no] } row

theorem processRows_posts (world : World) (gid now : String) (mode : Mode)
    (lm mn eb fl : Nat) :
    ∀ (rows : List Row) (st : LoopSt),
      ∃ t, (processRows world gid now mode lm mn eb fl st rows).st.db.posts
        = st.db.posts ++ t := by
  intro rows
  induction rows with
  | nil => intro st; exact ⟨[], by simp [processRows, StepOut.st]⟩
  | cons r rs ih =>
    intro st
    dsimp only [processRows]
    cases hr : processRow world gid now mode lm mn eb fl st r with
    | stopped reason st' =>
      have h := processRow_posts world gid now mode lm mn eb fl st r
      rw [hr] at h
      exact h
    | next st' =>
      have h1 := processRow_posts world gid now mode lm mn eb fl st r
      rw [hr] at h1
      simp only [StepOut.st] at h1
      obtain ⟨t1, h1⟩ := h1
      obtain ⟨t2, h2⟩ := ih st'
      exact ⟨t1 ++ t2, by rw [h2, h1, List.append_assoc]⟩

theorem runPages_posts (world : World) (gid now : String) (mode : Mode)
    (lm mn eb fl : Nat) :
    ∀ (fuel p : Nat) (st : LoopSt) (fp : List Nat),
      ∃ t, (runPages world gid now mode lm mn eb fl fuel p st fp).db.posts
        = st.db.posts ++ t := by
  intro fuel
  induction fuel with
  | zero => intro p st fp; exact ⟨[], by simp [runPages, update_crawl_state]⟩
  | succ n ih =>
    intro p st fp
    dsimp only [runPages]
    cases world.listPages p with
    | none => exact ih (p + 1) st (fp ++ [p])
    | some raw =>
      dsimp only
      split
      · exact ⟨[], by simp [update_crawl_state]⟩
      · cases hr : processRows world gid now mode lm mn eb fl st (sortDesc raw) with
        | stopped reason st' =>
          have h := processRows_posts world gid now mode lm mn eb fl (sortDesc raw) st
          rw [hr] at h
          exact h
        | next st' =>
          have h1 := processRows_posts world gid now mode lm mn eb fl (sortDesc raw) st
          rw [hr] at h1
          simp only [StepOut.st] at h1
          obtain ⟨t1, h1⟩ := h1
          obtain ⟨t2, h2⟩ := ih (p + 1) st' (fp ++ [p])
          exact ⟨t1 ++ t2, by rw [h2, h1, List.append_assoc]⟩

/-- A run only ever appends to the `posts` table. -/
theorem crawl_posts_grow (db : DB) (world : World) (gallery_id : String)
    (max_pages max_new existing_break : Nat) (mode : Mode) (floor_post : Nat) (now : String) :
    ∃ t, (crawl_incremental db world gallery_id max_pages max_new existing_break mode
      floor_post now).db.posts = db.posts ++ t :=
  runPages_posts world gallery_id now mode _ max_new existing_break floor_post max_pages 1 _ []

theorem maxPostNo_le_append (gid : String) (l t : List PostRecord) :
    maxPostNo gid l ≤ maxPostNo gid (l ++ t) := by
  induction l with
  | nil => exact Nat.zero_le _
  | cons p ps ih =>
    by_cases h : p.gallery_id = gid
    · simp only [List.cons_append, maxPostNo, if_pos h]
      exact max_le_max ih le_rfl
    · simp only [List.cons_append, maxPostNo, if_neg h]
      exact ih

theorem maxPostNo_ge (gid : String) (p : PostRecord) :
    ∀ l : List PostRecord, p ∈ l → p.gallery_id = gid → p.post_no ≤ maxPostNo gid l := by
  intro l
  induction l with
  | nil => intro h; exact absurd h (List.not_mem_nil p)
  | cons q qs ih =>
    intro hmem hg
    rcases List.mem_cons.mp hmem with heq | htail
    · subst heq
      simp only [maxPostNo, if_pos hg]
      exact le_max_right _ _
    · have hle := ih htail hg
      by_cases hq : q.gallery_id = gid
      · simp only [maxPostNo, if_pos hq]
        exact le_trans hle (le_max_left _ _)
      · simp only [maxPostNo, if_neg hq]
        exact hle

theorem maxPostNo_attained (gid : String) :
    ∀ l : List PostRecord, maxPostNo gid l = 0 ∨
      ∃ p, p ∈ l ∧ p.gallery_id = gid ∧ p.post_no = maxPostNo gid l := by
  intro l
  induction l with
  | nil => exact Or.inl rfl
  | cons q qs ih =>
    by_cases hq : q.gallery_id = gid
    · simp only [maxPostNo, if_pos hq]
      rcases le_total q.post_no (maxPostNo gid qs) with h | h
      · rw [max_eq_left h]
        rcases ih with h0 | ⟨p, hp, hpg, hpn⟩
        · exact Or.inl h0
        · exact Or.inr ⟨p, List.mem_cons_of_mem q hp, hpg, hpn⟩
      · rw [max_eq_right h]
        exact Or.inr ⟨q, List.mem_cons_self q qs, hq, rfl⟩
    · simp only [maxPostNo, if_neg hq]
      rcases ih with h0 | ⟨p, hp, hpg, hpn⟩
      · exact Or.inl h0
      · exact Or.inr ⟨p, List.mem_cons_of_mem q hp, hpg, hpn⟩

theorem runPages_initialWatermark (world : World) (gid now : String) (mode : Mode)
    (lm mn eb fl : Nat) :
    ∀ (fuel p : Nat) (st : LoopSt) (fp : List Nat),
      (runPages world gid now mode lm mn eb fl fuel p st fp).initialWatermark = lm := by
  intro fuel
  induction fuel with
  | zero => intro p st fp; rfl
  | succ n ih =>
    intro p st fp
    dsimp only [runPages]
    cases world.listPages p with
    | none => exact ih (p + 1) st (fp ++ [p])
    | some raw =>
      dsimp only
      split
      · rfl
      · cases processRows world gid now mode lm mn eb fl st (sortDesc raw) with
        | stopped reason st' => rfl
        | next st' => exact ih (p + 1) st' (fp ++ [p])

/-- The watermark a run starts from is `get_last_max_post_no`, the maximum
persisted `post_no` of the channel. -/
theorem crawl_initialWatermark (db : DB) (world : World) (gallery_id : String)
    (max_pages max_new existing_break : Nat) (mode : Mode) (floor_post : Nat) (now : String) :
    (crawl_incremental db world gallery_id max_pages max_new existing_break mode floor_post
      now).initialWatermark = get_last_max_post_no db gallery_id :=
  runPages_initialWatermark world gallery_id now mode _ max_new existing_break floor_post
    max_pages 1 _ []

/-- Loop invariant for the checkpoint value: `observedMax` is the running
maximum of the initial watermark and every `post_no` encountered. -/
def SeenInv (init : Nat) (st : LoopSt) : Prop :=
  st.observedMax = st.seen.foldl max init

/-- The invariant lifted to a step outcome; at a stop the checkpoint has been
written, so the stored `crawl_state` value equals `observedMax`. -/
def StepInv (gid : String) (init : Nat) : StepOut → Prop
  | .next st => SeenInv init st
  | .stopped _ st => SeenInv init st ∧ crawl_state_watermark st.db gid = st.observedMax

theorem fetchAndSave_inv (world : World) (gid now : String) (mn init : Nat)
    (st : LoopSt) (row : Row) (h : SeenInv init st) :
    StepInv gid init (fetchAndSave world gid now mn st row) := by
  dsimp only [fetchAndSave]
  cases world.details row.url with
  | none => exact h
  | some d =>
    dsimp only
    split
    · exact ⟨h, stateLookup_upsert gid _ now _⟩
    · exact h

theorem processRow_inv (world : World) (gid now : String) (mode : Mode)
    (lm mn eb fl init : Nat) (st : LoopSt) (row : Row) (h : SeenInv init st) :
    StepInv gid init (processRow world gid now mode lm mn eb fl st row) := by
  have h1 : SeenInv init
      { st with
        observedMax := max st.observedMax row.post_no
        seen := st.seen ++ [row.post_no] } := by
    show max st.observedMax row.post_no = (st.seen ++ [row.post_no]).foldl max init
    rw [List.foldl_append]
    simp only [List.foldl_cons, List.foldl_nil]
    rw [← h]
  dsimp only [processRow]
  cases mode with
  | incremental =>
    by_cases hle : row.post_no ≤ lm
    · by_cases hbrk : st.consecutiveExisting + 1 ≥ eb
      · simp only [if_pos hle, if_pos hbrk]
        exact ⟨h1, stateLookup_upsert gid _ now _⟩
      · simp only [if_pos hle, if_neg hbrk]
        exact h1
    · simp only [if_neg hle]
      exact fetchAndSave_inv world gid now mn init _ row h1
  | backfill =>
    by_cases hfl : fl ≠ 0 ∧ row.post_no ≤ fl
    · simp only [if_pos hfl]
      exact ⟨h1, stateLookup_upsert gid _ now _⟩
    · simp only [if_neg hfl]
      exact fetchAndSave_inv world gid now mn init _ row h1

theorem processRows_inv (world : World) (gid now : String) (mode : Mode)
    (lm mn eb fl init : Nat) :
    ∀ (rows : List Row) (st : LoopSt), SeenInv init st →
      StepInv gid init (processRows world gid now mode lm mn eb fl st rows) := by
  intro rows
  induction rows with
  | nil => intro st h; exact h
  | cons r rs ih =>
    intro st h
    dsimp only [processRows]
    cases hr : processRow world gid now mode lm mn eb fl st r with
    | stopped reason st' =>
      have hi := processRow_inv world gid now mode lm mn eb fl init st r h
      rw [hr] at hi
      exact hi
    | next st' =>
      have hi := processRow_inv world gid now mode lm mn eb fl init st r h
      rw [hr] at hi
      exact ih st' hi

theorem runPages_watermark (world : World) (gid now : String) (mode : Mode)
    (lm mn eb fl init : Nat) :
    ∀ (fuel p : Nat) (st : LoopSt) (fp : List Nat), SeenInv init st →
      crawl_state_watermark (runPages world gid now mode lm mn eb fl fuel p st fp).db gid =
        (runPages world gid now mode lm mn eb fl fuel p st fp).seen.foldl max init := by
  intro fuel
  induction fuel with
  | zero =>
    intro p st fp h
    show crawl_state_watermark (update_crawl_state st.db gid st.observedMax now) gid
      = st.seen.foldl max init
    rw [← h]
    exact stateLookup_upsert gid _ now _
  | succ n ih =>
    intro p st fp h
    dsimp only [runPages]
    cases world.listPages p with
    | none => exact ih (p + 1) st (fp ++ [p]) h
    | some raw =>
      dsimp only
      split
      · show crawl_state_watermark (update_crawl_state st.db gid st.observedMax now) gid
          = st.seen.foldl max init
        rw [← h]
        exact stateLookup_upsert gid _ now _
      · cases hr : processRows world gid now mode lm mn eb fl st (sortDesc raw) with
        | stopped reason st' =>
          have hi := processRows_inv world gid now mode lm mn eb fl init (sortDesc raw) st h
          rw [hr] at hi
          show crawl_state_watermark st'.db gid = st'.seen.foldl max init
          rw [hi.2, hi.1]
        | next st' =>
          have hi := processRows_inv world gid now mode lm mn eb fl init (sortDesc raw) st h
          rw [hr] at hi
          exact ih (p + 1) st' (fp ++ [p]) hi

theorem runPages_allFail (world : World) (gid now : String) (mode : Mode)
    (lm mn eb fl : Nat) (h : ∀ q, world.listPages q = none) :
    ∀ (fuel p : Nat) (st : LoopSt) (fp : List Nat),
      runPages world gid now mode lm mn eb fl fuel p st fp =
        { db := update_crawl_state st.db gid st.observedMax now
          initialWatermark := lm
          fetchedPages := fp ++ List.range' p fuel
          fetchedDetails := st.fetchedDetails
          seen := st.seen
          reason := .finished } := by
  intro fuel
  induction fuel with
  | zero => intro p st fp; simp [runPages]
  | succ n ih =>
    intro p st fp
    dsimp only [runPages]
    rw [h p]
    rw [ih (p + 1) st (fp ++ [p])]
    rw [List.range'_succ p n 1, List.append_assoc]
    rfl

theorem save_post_filter_ne (db : DB) (gid : String) (row : Row) (detail : Detail)
    (now u : String) (h : row.url ≠ u) :
    (save_post db gid row detail now).posts.filter (fun p => decide (p.url = u)) =
      db.posts.filter (fun p => decide (p.url = u)) := by
  dsimp only [save_post]
  split
  · rfl
  · simp [List.filter_append, mkRecord, h]

theorem fetchAndSave_filter (world : World) (gid now : String) (mn : Nat) (u : String)
    (hu : world.details u = none) (st : LoopSt) (row : Row) :
    (fetchAndSave world gid now mn st row).st.db.posts.filter (fun p => decide (p.url = u)) =
      st.db.posts.filter (fun p => decide (p.url = u)) := by
  by_cases hr : row.url = u
  · dsimp only [fetchAndSave]
    rw [hr, hu]
    rfl
  · dsimp only [fetchAndSave]
    cases world.details row.url with
    | none => rfl
    | some d =>
      dsimp only
      split
      · exact save_post_filter_ne st.db gid row d now u hr
      · exact save_post_filter_ne st.db gid row d now u hr

theorem processRow_filter (world : World) (gid now : String) (mode : Mode)
    (lm mn eb fl : Nat) (u : String) (hu : world.details u = none) (st : LoopSt) (row : Row) :
    (processRow world gid now mode lm mn eb fl st row).st.db.posts.filter
        (fun p => decide (p.url = u)) =
      st.db.posts.filter (fun p => decide (p.url = u)) := by
  dsimp only [processRow]
  cases mode with
  | incremental =>
    by_cases h1 : row.post_no ≤ lm
    · by_cases h2 : st.consecutiveExisting + 1 ≥ eb
      · simp [h1, h2, StepOut.st, update_crawl_state]
      · simp [h1, h2, StepOut.st]
    · simp only [if_neg h1]
      exact fetchAndSave_filter world gid now mn u hu _ row
  | backfill =>
    by_cases h1 : fl ≠ 0 ∧ row.post_no ≤ fl
    · simp [h1, StepOut.st, update_crawl_state]
    · simp only [if_neg h1]
      exact fetchAndSave_filter world gid now mn u hu _ row

theorem processRows_filter (world : World) (gid now : String) (mode : Mode)
    (lm mn eb fl : Nat) (u : String) (hu : world.details u = none) :
    ∀ (rows : List Row) (st : LoopSt),
      (processRows world gid now mode lm mn eb fl st rows).st.db.posts.filter
          (fun p => decide (p.url = u)) =
        st.db.posts.filter (fun p => decide (p.url = u)) := by
  intro rows
  induction rows with
  | nil => intro st; rfl
  | cons r rs ih =>
    intro st
    dsimp only [processRows]
    cases hr : processRow world gid now mode lm mn eb fl st r with
    | stopped reason st' =>
      have h := processRow_filter world gid now mode lm mn eb fl u hu st r
      rw [hr] at h
      exact h
    | next st' =>
      have h1 := processRow_filter world gid now mode lm mn eb fl u hu st r
      rw [hr] at h1
      simp only [StepOut.st] at h1
      rw [ih st', h1]

theorem runPages_filter (world : World) (gid now : String) (mode : Mode)
    (lm mn eb fl : Nat) (u : String) (hu : world.details u = none) :
    ∀ (fuel p : Nat) (st : LoopSt) (fp : List Nat),
      (runPages world gid now mode lm mn eb fl fuel p st fp).db.posts.filter
          (fun p => decide (p.url = u)) =
        st.db.posts.filter (fun p => decide (p.url = u)) := by
  intro fuel
  induction fuel with
  | zero => intro p st fp; rfl
  | succ n ih =>
    intro p st fp
    dsimp only [runPages]
    cases world.listPages p with
    | none => exact ih (p + 1) st (fp ++ [p])
    | some raw =>
      dsimp only
      split
      · rfl
      · cases hr : processRows world gid now mode lm mn eb fl st (sortDesc raw) with
        | stopped reason st' =>
          have h := processRows_filter world gid now mode lm mn eb fl u hu (sortDesc raw) st
          rw [hr] at h
          exact h
        | next st' =>
          have h1 := processRows_filter world gid now mode lm mn eb fl u hu (sortDesc raw) st
          rw [hr] at h1
          simp only [StepOut.st] at h1
          rw [ih (p + 1) st' (fp ++ [p]), h1]

theorem retryAttempts_le (attempt : Nat → FetchOutcome) (sb : ℚ) (jit : Nat → ℚ) :
    ∀ fuel i, (retryAttempts attempt sb jit i fuel).attemptsMade ≤ fuel := by
  intro fuel
  induction fuel with
  | zero => intro i; exact le_rfl
  | succ n ih =>
    intro i
    dsimp only [retryAttempts]
    cases body200 (attempt i) with
    | some b => exact Nat.succ_le_succ (Nat.zero_le n)
    | none => exact Nat.succ_le_succ (ih (i + 1))

theorem retryAttempts_success (attempt : Nat → FetchOutcome) (sb : ℚ) (jit : Nat → ℚ) :
    ∀ fuel i k b, k < fuel → (∀ j, j < k → body200 (attempt (i + j)) = none) →
      body200 (attempt (i + k)) = some b →
      (retryAttempts attempt sb jit i fuel).result = some b := by
  intro fuel
  induction fuel with
  | zero => intro i k b hk; exact absurd hk (Nat.not_lt_zero k)
  | succ n ih =>
    intro i k b hk hall hk200
    dsimp only [retryAttempts]
    cases hb : body200 (attempt i) with
    | some b0 =>
      cases k with
      | zero =>
        rw [Nat.add_zero, hb] at hk200
        exact hk200
      | succ k' =>
        have h0 := hall 0 (Nat.succ_pos k')
        rw [Nat.add_zero, hb] at h0
        exact absurd h0 (Option.some_ne_none b0)
    | none =>
      cases k with
      | zero =>
        rw [Nat.add_zero, hb] at hk200
        exact absurd hk200.symm (Option.some_ne_none b)
      | succ k' =>
        dsimp only
        apply ih (i + 1) k' b (Nat.lt_of_succ_lt_succ hk)
        · intro j hj
          have h := hall (j + 1) (Nat.succ_lt_succ hj)
          rwa [show i + (j + 1) = i + 1 + j by omega] at h
        · rwa [show i + (k' + 1) = i + 1 + k' by omega] at hk200

theorem retryAttempts_exhaust (attempt : Nat → FetchOutcome) (sb : ℚ) (jit : Nat → ℚ) :
    ∀ fuel i, (∀ k, k < fuel → body200 (attempt (i + k)) = none) →
      (retryAttempts attempt sb jit i fuel).result = none ∧
      (retryAttempts attempt sb jit i fuel).attemptsMade = fuel ∧
      (retryAttempts attempt sb jit i fuel).sleeps =
        (List.range fuel).map (fun k => sb * (((i + k : Nat) : ℚ) + 1) + jit (i + k)) := by
  intro fuel
  induction fuel with
  | zero => intro i h; exact ⟨rfl, rfl, rfl⟩
  | succ n ih =>
    intro i h
    have h0 : body200 (attempt i) = none := by
      have := h 0 (Nat.succ_pos n)
      rwa [Nat.add_zero] at this
    dsimp only [retryAttempts]
    rw [h0]
    dsimp only
    obtain ⟨h1, h2, h3⟩ := ih (i + 1) (fun k hk => by
      have := h (k + 1) (Nat.succ_lt_succ hk)
      rwa [show i + (k + 1) = i + 1 + k by omega] at this)
    refine ⟨h1, by rw [h2], ?_⟩
    rw [h3, List.range_succ_eq_map, List.map_cons, List.map_map]
    have harg : ∀ k : Nat, i + 1 + k = i + (k + 1) := by intro k; omega
    simp only [Nat.add_zero, Function.comp]
    exact congrArg _ (List.map_congr_left (fun k _ => by
      simp [Function.comp, Nat.succ_eq_add_one, harg k]))

/-! ### Claim theorems -/

/-- Claim C6: with the stored watermark at 40, a listing descending from 50
and `existing_break = 5`, the incremental run persists exactly posts 50..41,
stops early after five consecutive already-seen posts (40,39,38,37,36), and
never fetches the detail page of post 29. -/
theorem c6_incremental_stop_scenario :
    runC6.db.posts.map (fun p => p.post_no)
        = [40, 50, 49, 48, 47, 46, 45, 44, 43, 42, 41] ∧
    runC6.fetchedDetails
        = ["u50", "u49", "u48", "u47", "u46", "u45", "u44", "u43", "u42", "u41"] ∧
    "u29" ∉ runC6.fetchedDetails ∧
    runC6.seen = [50, 49, 48, 47, 46, 45, 44, 43, 42, 41, 40, 39, 38, 37, 36] ∧
    runC6.reason = .earlyStop := by
  decide

/-- Claim C8: in backfill mode with `floor_post = 100` over a listing
descending from 105, every encountered post with number ≥ 101 ends up
persisted (including the pre-stored 103), the run stops at the first post
≤ 100 with reason `floorStop`, and neither fetches nor persists post 100. -/
theorem c8_backfill_floor_scenario :
    runC8.db.posts.map (fun p => p.post_no) = [103, 105, 104, 102, 101] ∧
    runC8.fetchedDetails = ["u105", "u104", "u103", "u102", "u101"] ∧
    "u100" ∉ runC8.fetchedDetails ∧
    100 ∉ runC8.db.posts.map (fun p => p.post_no) ∧
    runC8.reason = .floorStop := by
  decide

/-- Claim C1, counterexample: post 99's detail fetch exhausts retries, so 99
is never persisted, yet the watermark recorded at the run's checkpoint is
100, strictly past 99. -/
theorem c1_cex_checkpoint_past_failed_item :
    worldC1.details "u99" = none ∧
    "u99" ∈ runC1.fetchedDetails ∧
    99 ∉ runC1.db.posts.map (fun p => p.post_no) ∧
    crawl_state_watermark runC1.db "ecoin" = 100 := by
  decide

/-- Claim C2, counterexample: after a run that observed post 100 without
persisting it, the stored `crawl_state` watermark is 100; a following run in
which every list fetch fails rewrites it to 0 — the stored value decreases
across consecutive runs. -/
theorem c2_cex_crawl_state_decreases :
    crawl_state_watermark runC2a.db "ecoin" = 100 ∧
    crawl_state_watermark runC2b.db "ecoin" = 0 := by
  decide

/-- Claim C3, counterexample: with a `crawl_state` record of 100 for the
channel and no persisted posts, the run's initial watermark is 0, not the
stored 100 — the controller never reads `crawl_state`. -/
theorem c3_cex_crawl_state_not_read :
    crawl_state_watermark dbC3 "ecoin" = 100 ∧
    runC3.initialWatermark = 0 := by
  decide

/-- Claim C4, counterexample: the fetch of list page 1 fails, yet page 2 is
still fetched and its post 10 is processed and persisted — a list-page fetch
failure does not abort the traversal. -/
theorem c4_cex_fetch_failure_continues :
    worldC4.listPages 1 = none ∧
    runC4.fetchedPages = [1, 2] ∧
    runC4.db.posts.map (fun p => p.post_no) = [10] ∧
    runC4.reason = .finished := by
  decide

/-- Claim C5, counterexample: post 5 is stored with an absent author;
re-applying the upsert with a detail record that now has an author leaves the
row's author absent — previously-absent fields are not filled in. -/
theorem c5_cex_absent_field_not_filled :
    detailNoAuthor.author = none ∧
    mkDetail.author = some "alice" ∧
    save_post dbC5 "ecoin" (mkRow 5) mkDetail "t2" = dbC5 ∧
    dbC5.posts.map (fun p => p.author) = [none] := by
  decide

/-- Claim C7, counterexample: post 77's detail fetch exhausts retries while
the higher post 80 is persisted in the same run; the subsequent run then
starts from watermark 80 ≥ 77, fetches nothing, and 77 is never persisted —
the failed item is not re-selected. -/
theorem c7_cex_higher_item_blocks_reselect :
    worldC7.details "u77" = none ∧
    runC7a.db.posts.map (fun p => p.post_no) = [80] ∧
    runC7b.initialWatermark = 80 ∧
    runC7b.fetchedDetails = [] ∧
    77 ∉ runC7b.db.posts.map (fun p => p.post_no) := by
  decide

/-- Claim C9, counterexample: every attempt returns a 201 response — a
successful 2xx status — yet `with_retry_get` never returns the body: it
retries all three attempts and returns the failure value. -/
theorem c9_cex_non200_2xx_not_returned :
    200 ≤ 201 ∧ 201 < 300 ∧
    (with_retry_get (fun _ => .response 201 "created") 3 1 (fun _ => 0)).result = none ∧
    (with_retry_get (fun _ => .response 201 "created") 3 1 (fun _ => 0)).attemptsMade = 3 := by
  decide

/-- Claim C2 (amended): the watermark the controller actually reads — the
maximum `post_no` among persisted posts, `get_last_max_post_no` — is
non-decreasing across runs for every channel, because a run only ever appends
to the `posts` table. (The value stored in `crawl_state` can decrease.) -/
theorem c2_effective_watermark_monotone (db : DB) (world : World) (gallery_id : String)
    (max_pages max_new existing_break : Nat) (mode : Mode) (floor_post : Nat)
    (now g : String) :
    get_last_max_post_no db g ≤
      get_last_max_post_no (crawl_incremental db world gallery_id max_pages max_new
        existing_break mode floor_post now).db g := by
  obtain ⟨t, ht⟩ := crawl_posts_grow db world gallery_id max_pages max_new existing_break
    mode floor_post now
  unfold get_last_max_post_no
  rw [ht]
  exact maxPostNo_le_append g db.posts t

/-- Claim C5 (amended): re-applying the upsert for the same `(channelID,
externalID)` — with identical or different detail data — is a complete no-op:
no duplicate row appears and the stored row is left entirely unchanged, so
existing detail is never erased (but absent fields are not filled either). -/
theorem c5_reapplied_upsert_noop (db : DB) (gid : String) (row : Row) (d1 d2 : Detail)
    (t1 t2 : String) :
    save_post (save_post db gid row d1 t1) gid row d2 t2 = save_post db gid row d1 t1 := by
  by_cases hc : db.posts.any (fun p =>
      decide ((p.gallery_id = gid ∧ p.post_no = row.post_no) ∨ p.url = row.url)) = true
  · have h1 : save_post db gid row d1 t1 = db := by
      simp only [save_post, mkRecord]
      rw [if_pos hc]
    rw [h1]
    simp only [save_post, mkRecord]
    rw [if_pos hc]
  · have h1 : save_post db gid row d1 t1
        = { db with posts := db.posts ++ [mkRecord gid row d1 t1] } := by
      simp only [save_post, mkRecord]
      rw [if_neg hc]
    rw [h1]
    simp only [save_post, mkRecord]
    rw [if_pos]
    simp [List.any_append]

/-- Claim C10: a later save whose record conflicts with an already-present row
on the primary key `(gallery_id, post_no)` or on the unique `url` is discarded
in its entirety — the database is left exactly as it was, so no field of a
persisted row is ever updated or filled in after first insertion. -/
theorem c10_conflicting_insert_ignored (db : DB) (gid : String) (row : Row) (detail : Detail)
    (now : String) (p : PostRecord) (hp : p ∈ db.posts)
    (h : (p.gallery_id = gid ∧ p.post_no = row.post_no) ∨ p.url = row.url) :
    save_post db gid row detail now = db := by
  simp only [save_post, mkRecord]
  rw [if_pos]
  apply List.any_eq_true.mpr
  exact ⟨p, hp, decide_eq_true h⟩

/-- Witness for C10: re-saving post 5 over the database already holding it (by
primary key and url) leaves the database unchanged. -/
theorem c10_conflicting_insert_ignored_witness :
    save_post dbC5 "ecoin" (mkRow 5) mkDetail "t9" = dbC5 :=
  c10_conflicting_insert_ignored dbC5 "ecoin" (mkRow 5) mkDetail "t9"
    (mkRecord "ecoin" (mkRow 5) detailNoAuthor "t1") (by decide) (by decide)

/-- Claim C1 (amended): the watermark a run's checkpoints record in
`crawl_state` is exactly the maximum of the starting watermark and every
externalID encountered during the run — persisted, policy-skipped or
detail-fetch-failed alike — so it can advance past an item that was never
persisted. (This record is never read back; the resume point actually used is
`get_last_max_post_no`.) -/
theorem c1_checkpoint_records_observed_max (db : DB) (world : World) (gallery_id : String)
    (max_pages max_new existing_break : Nat) (mode : Mode) (floor_post : Nat) (now : String) :
    crawl_state_watermark (crawl_incremental db world gallery_id max_pages max_new
        existing_break mode floor_post now).db gallery_id =
      (crawl_incremental db world gallery_id max_pages max_new existing_break mode
        floor_post now).seen.foldl max (get_last_max_post_no db gallery_id) :=
  runPages_watermark world gallery_id now mode _ max_new existing_break floor_post
    (get_last_max_post_no db gallery_id) max_pages 1 _ [] rfl

/-- Claim C3 (amended): the initial watermark of every run — the value
`observedMax` starts from and items are classified against — is the greatest
`post_no` among the posts already persisted for the channel (0 when there are
none); the `crawl_state` record plays no part in it. -/
theorem c3_initial_watermark_max_persisted (db : DB) (world : World) (gallery_id : String)
    (max_pages max_new existing_break : Nat) (mode : Mode) (floor_post : Nat) (now : String) :
    (∀ p, p ∈ db.posts → p.gallery_id = gallery_id →
      p.post_no ≤ (crawl_incremental db world gallery_id max_pages max_new existing_break
        mode floor_post now).initialWatermark) ∧
    ((crawl_incremental db world gallery_id max_pages max_new existing_break mode floor_post
        now).initialWatermark = 0 ∨
      ∃ p, p ∈ db.posts ∧ p.gallery_id = gallery_id ∧
        p.post_no = (crawl_incremental db world gallery_id max_pages max_new existing_break
          mode floor_post now).initialWatermark) := by
  have h := crawl_initialWatermark db world gallery_id max_pages max_new existing_break
    mode floor_post now
  constructor
  · intro p hp hg
    rw [h]
    exact maxPostNo_ge gallery_id p db.posts hp hg
  · rw [h]
    exact maxPostNo_attained gallery_id db.posts

/-- Witness for C3 (amended): in the C6 scenario the persisted post 40 is
below the run's initial watermark. -/
theorem c3_initial_watermark_max_persisted_witness :
    (mkRecord "ecoin" (mkRow 40) mkDetail "t0").post_no ≤ runC6.initialWatermark :=
  (c3_initial_watermark_max_persisted dbC6 worldC6 "ecoin" 5 50 5 .incremental 0 "t1").1
    (mkRecord "ecoin" (mkRow 40) mkDetail "t0") (by decide) (by decide)

/-- Claim C7 (amended): an item whose detail fetch exhausts retries is indeed
never upserted in that run (the posts carrying its URL are exactly those
already present). It is re-classified as new by a subsequent run only when no
item with a greater externalID was persisted for the channel: in the concrete
scenario where the failing run persisted only the lower post 70, the next run
starts from watermark 70 < 77, re-fetches `u77` and persists 77. -/
theorem c7_failed_item_not_upserted (db : DB) (world : World) (gallery_id : String)
    (max_pages max_new existing_break : Nat) (mode : Mode) (floor_post : Nat)
    (now u : String) (hu : world.details u = none) :
    ((crawl_incremental db world gallery_id max_pages max_new existing_break mode floor_post
        now).db.posts.filter (fun p => decide (p.url = u)) =
      db.posts.filter (fun p => decide (p.url = u))) ∧
    (runC7c.db.posts.map (fun p => p.post_no) = [70] ∧
      runC7d.initialWatermark = 70 ∧
      "u77" ∈ runC7d.fetchedDetails ∧
      runC7d.db.posts.map (fun p => p.post_no) = [70, 77]) := by
  refine ⟨?_, by decide⟩
  exact runPages_filter world gallery_id now mode _ max_new existing_break floor_post u hu
    max_pages 1 _ []

/-- Witness for C7 (amended): in the scenario where `u77`'s detail fetch
fails, the run over the empty database stores no row with url `u77`. -/
theorem c7_failed_item_not_upserted_witness :
    runC7c.db.posts.filter (fun p => decide (p.url = "u77")) =
      dbEmpty.posts.filter (fun p => decide (p.url = "u77")) :=
  (c7_failed_item_not_upserted dbEmpty worldC7c "ecoin" 1 50 20 .incremental 0 "t1" "u77"
    (by decide)).1

/-- Claim C4 (amended): a list-page fetch failure only skips that page —
traversal continues with the next page. In a run where every list fetch
fails, all `max_pages` pages are still attempted, nothing is persisted and no
detail page is fetched, and the run ends by exhausting its pages rather than
aborting at the first failure. -/
theorem c4_fetch_failure_skips_page_only (db : DB) (world : World) (gallery_id : String)
    (max_pages max_new existing_break : Nat) (mode : Mode) (floor_post : Nat) (now : String)
    (h : ∀ q, world.listPages q = none) :
    (crawl_incremental db world gallery_id max_pages max_new existing_break mode floor_post
        now).fetchedPages = List.range' 1 max_pages ∧
    (crawl_incremental db world gallery_id max_pages max_new existing_break mode floor_post
        now).db.posts = db.posts ∧
    (crawl_incremental db world gallery_id max_pages max_new existing_break mode floor_post
        now).fetchedDetails = [] ∧
    (crawl_incremental db world gallery_id max_pages max_new existing_break mode floor_post
        now).reason = .finished := by
  unfold crawl_incremental
  rw [runPages_allFail world gallery_id now mode _ max_new existing_break floor_post h
    max_pages 1 _ []]
  exact ⟨by simp, rfl, rfl, rfl⟩

/-- Claim C9 (amended): `with_retry_get` makes at most `max_try` attempts; it
returns the body of the first attempt whose status is exactly 200 (other 2xx
statuses count as failures); when every attempt fails it makes exactly
`max_try` attempts, sleeping `sleep_base * (i + 1) + jitter i` after the
`i`-th failed attempt, and returns the failure value `none` instead of
raising. -/
theorem c9_retry_semantics (attempt : Nat → FetchOutcome) (max_try : Nat)
    (sleep_base : ℚ) (jitter : Nat → ℚ) :
    (with_retry_get attempt max_try sleep_base jitter).attemptsMade ≤ max_try ∧
    (∀ k b, k < max_try → (∀ j, j < k → body200 (attempt j) = none) →
      body200 (attempt k) = some b →
      (with_retry_get attempt max_try sleep_base jitter).result = some b) ∧
    ((∀ k, k < max_try → body200 (attempt k) = none) →
      (with_retry_get attempt max_try sleep_base jitter).result = none ∧
      (with_retry_get attempt max_try sleep_base jitter).attemptsMade = max_try ∧
      (with_retry_get attempt max_try sleep_base jitter).sleeps =
        (List.range max_try).map (fun (k : Nat) => sleep_base * ((k : ℚ) + 1) + jitter k)) := by
  unfold with_retry_get
  refine ⟨retryAttempts_le attempt sleep_base jitter max_try 0, ?_, ?_⟩
  · intro k b hk hall h200
    exact retryAttempts_success attempt sleep_base jitter max_try 0 k b hk
      (fun j hj => by simpa using hall j hj) (by simpa using h200)
  · intro hall
    have h := retryAttempts_exhaust attempt sleep_base jitter max_try 0
      (fun k hk => by simpa using hall k hk)
    simpa using h

/-- Witness for C9 (amended): with a transport error on attempt 0 and a 200
response on attempt 1, the wrapper returns that body. -/
theorem c9_retry_semantics_witness :
    (with_retry_get (fun n => if n = 1 then .response 200 "ok" else .transportError) 3 1
        (fun _ => 0)).result = some "ok" :=
  (c9_retry_semantics (fun n => if n = 1 then .response 200 "ok" else .transportError) 3 1
    (fun _ => 0)).2.1 1 "ok" (by decide) (by decide) (by decide)

/-- Witness for C4 (amended): a three-page run in which every list fetch
fails attempts pages 1, 2 and 3 and changes no posts. -/
theorem c4_fetch_failure_skips_page_only_witness :
    (crawl_incremental dbEmpty worldAllFail "ecoin" 3 50 20 .incremental 0 "t1").fetchedPages
        = List.range' 1 3 ∧
    (crawl_incremental dbEmpty worldAllFail "ecoin" 3 50 20 .incremental 0 "t1").db.posts
        = dbEmpty.posts ∧
    (crawl_incremental dbEmpty worldAllFail "ecoin" 3 50 20 .incremental 0 "t1").fetchedDetails
        = [] ∧
    (crawl_incremental dbEmpty worldAllFail "ecoin" 3 50 20 .incremental 0 "t1").reason
        = .finished :=
  c4_fetch_failure_skips_page_only dbEmpty worldAllFail "ecoin" 3 50 20 .incremental 0 "t1"
    (fun _ => rfl)

end Dcinside
